import Mathlib

/-!
Verification development for the CUQIpy-demos repository.

The repository consists of tutorial notebooks driving the CUQIpy library;
the MCMC engine the spec describes (density model, proposal kernels,
acceptance rule, adaptation controller, chain store, distribution objects)
is called by the notebooks but its implementation is not part of the
repository sources.  Following the spec, those components are modelled
here as executable Lean definitions (each marked `Modelled from the spec:`)
and the spec claims are settled against this model.

Numerical values are modelled over `ℚ` wherever the claims are about
shapes, lengths, control flow and error behaviour, so that everything is
executable; the preconditioned Crank-Nicolson acceptance-ratio algebra,
which genuinely needs square roots and exponentials, is modelled over `ℝ`.
A log-density value is `LogD := Option ℚ`, where `none` plays the role of
`-inf` (zero density / support violation), mirroring the IEEE behaviour of
the comparisons the samplers perform.
-/

namespace CUQIpyDemos

/-- Modelled from the spec: the explicitly owned seedable deterministic
pseudo-random generator (spec section 5); a linear congruential step on a
natural-number state. -/
def lcg (s : ℕ) : ℕ := (1103515245 * s + 12345) % 2 ^ 31

/-- Modelled from the spec: derive a pseudo-uniform rational in `[0, 1)`
from a generator state. -/
def unitOf (s : ℕ) : ℚ := ((s % 1000 : ℕ) : ℚ) / 1000

/-- Modelled from the spec: a pseudo-noise vector of length `d` drawn from
the generator (stand-in for the Gaussian vector `ξ` of spec section 4.2;
only its length and determinism matter for the claims below). -/
def noiseVec (s d : ℕ) : List ℚ := (List.range d).map (fun i => unitOf (lcg (s + i)) - 1 / 2)

/-- Log-density values: `none` represents `-inf` (support violation /
zero density), `some q` a finite unnormalized log-density. -/
abbrev LogD : Type := Option ℚ

/-- Modelled from the spec: the target density object (spec section 4.1):
dimension of the parameter vector, unnormalized log-density (with `-inf`
permitted), and an optional gradient oracle. -/
structure Target where
  dim : ℕ
  log_density : List ℚ → LogD
  gradient : Option (List ℚ → List ℚ)

/-- Order test on log-density values with `-inf` below every finite value,
mirroring the IEEE comparison the acceptance test performs. -/
def leLogD : LogD → LogD → Bool
  | Option.none, _ => true
  | Option.some _, Option.none => false
  | Option.some a, Option.some b => decide (a ≤ b)

/-- Minimum of two log-density values under `leLogD`. -/
def minLogD (a b : LogD) : LogD := if leLogD a b then a else b

/-- Log acceptance ratio `log_density(candidate) - log_density(current)`
for a finite current value: `-inf` candidate gives `-inf` ratio. -/
def logRatioD (lcur : ℚ) (lcand : LogD) : LogD :=
  Option.map (fun v => v - lcur) lcand

/-- Modelled from the spec: the Metropolis-Hastings acceptance decision in
log space (spec sections 4.2 and 4.3): accept iff
`log u ≤ min(0, log_density(candidate) - log_density(current))`, with the
overflow clamp `min 0` (ratio ≥ 1 means unconditional acceptance). -/
def acceptDecision (lcur : ℚ) (lcand : LogD) (logu : ℚ) : Bool :=
  leLogD (Option.some logu) (minLogD (Option.some 0) (logRatioD lcur lcand))

/-- Modelled from the spec: mutable per-kernel bookkeeping (spec
section 3): current position, adaptive scale parameter, generator state. -/
structure SamplerState where
  current : List ℚ
  scale : ℚ
  rng : ℕ

/-- Modelled from the spec: the random-walk Metropolis proposal
`candidate = current + scale * ξ` (spec section 4.2). -/
def proposeRW (st : SamplerState) (d : ℕ) : List ℚ :=
  List.zipWith (fun x n => x + st.scale * n) st.current (noiseVec st.rng d)

/-- Modelled from the spec: multiplicative rescaling of the step parameter
from acceptance feedback during warm-up (spec section 4.3). -/
def adaptScale (scale : ℚ) (accepted : Bool) : ℚ :=
  if accepted then scale * (11 / 10) else scale * (9 / 10)

/-- Acceptance outcome of one Metropolis iteration from a given sampler
state: a current state with `-inf` log-density never accepts, otherwise
the log-space acceptance test is applied to the random-walk candidate. -/
def stepAccepted (t : Target) (st : SamplerState) : Bool :=
  match t.log_density st.current with
  | Option.none => false
  | Option.some lc =>
      acceptDecision lc (t.log_density (proposeRW st t.dim)) (unitOf (lcg (st.rng + t.dim)) - 1)

/-- Modelled from the spec: one iteration of the adaptive Metropolis
sampler (spec sections 4.2 and 4.3).  On rejection the position is left at
the previous state; the scale is only adapted when `doAdapt` is set. -/
def stepRW (t : Target) (doAdapt : Bool) (st : SamplerState) : SamplerState :=
  let acc := stepAccepted t st
  ⟨if acc then proposeRW st t.dim else st.current,
   if doAdapt then adaptScale st.scale acc else st.scale,
   lcg (lcg (st.rng + t.dim))⟩

/-- Sampler-state trajectory: state after `n` iterations, adapting exactly
during the first `Nb` iterations (the warm-up window of spec section 4.3). -/
def iterState (t : Target) (Nb : ℕ) (init : SamplerState) : ℕ → SamplerState
  | 0 => init
  | n + 1 => stepRW t (decide (n < Nb)) (iterState t Nb init n)

/-- Modelled from the spec: the sampling entry point
`sample_adapt(Ns, Nb)` (spec sections 4.3 and 6): runs `Ns + Nb`
iterations from the initial state, appending one state per iteration
(the candidate when accepted, the previous state again when rejected). -/
def sample_adapt (t : Target) (Ns Nb : ℕ) (x0 : List ℚ) (scale0 : ℚ) (seed : ℕ) :
    List (List ℚ) :=
  (List.range (Ns + Nb)).map (fun n => (iterState t Nb ⟨x0, scale0, seed⟩ (n + 1)).current)

lemma length_noiseVec (s d : ℕ) : (noiseVec s d).length = d := by
  simp [noiseVec]

lemma length_proposeRW (st : SamplerState) (d : ℕ) (h : st.current.length = d) :
    (proposeRW st d).length = d := by
  simp [proposeRW, length_noiseVec, h]

lemma length_stepRW (t : Target) (a : Bool) (st : SamplerState)
    (h : st.current.length = t.dim) : (stepRW t a st).current.length = t.dim := by
  by_cases hacc : stepAccepted t st
  · simp [stepRW, hacc, length_proposeRW st t.dim h]
  · simp [stepRW, hacc, h]

lemma length_iterState (t : Target) (Nb : ℕ) (init : SamplerState)
    (h : init.current.length = t.dim) (n : ℕ) :
    (iterState t Nb init n).current.length = t.dim := by
  induction n with
  | zero => exact h
  | succ k ih => exact length_stepRW t _ _ ih

/-- C1: a sampling run `sample_adapt(Ns, Nb)` produces a chain of length
exactly `Ns + Nb`; every chain element has the dimensionality of the
parameter vector; and a rejected proposal leaves the appended state equal
to the previous state, so the output length is fixed regardless of
acceptances. -/
theorem sample_adapt_chain_invariants (t : Target) (Ns Nb : ℕ) (x0 : List ℚ)
    (scale0 : ℚ) (seed : ℕ) (h : x0.length = t.dim) :
    (sample_adapt t Ns Nb x0 scale0 seed).length = Ns + Nb ∧
    (∀ s ∈ sample_adapt t Ns Nb x0 scale0 seed, s.length = t.dim) ∧
    (∀ (st : SamplerState) (a : Bool),
      stepAccepted t st = false → (stepRW t a st).current = st.current) := by
  refine ⟨?_, ?_, ?_⟩
  · simp [sample_adapt]
  · intro s hs
    simp only [sample_adapt, List.mem_map, List.mem_range] at hs
    obtain ⟨n, -, rfl⟩ := hs
    exact length_iterState t Nb ⟨x0, scale0, seed⟩ h (n + 1)
  · intro st a hrej
    simp [stepRW, hrej]

/-- Witness for C1 at a concrete target and run configuration. -/
theorem sample_adapt_chain_invariants_witness :
    (sample_adapt ⟨2, fun _ => Option.some 0, Option.none⟩ 3 2 [0, 0] 1 7).length = 3 + 2 ∧
    (∀ s ∈ sample_adapt ⟨2, fun _ => Option.some 0, Option.none⟩ 3 2 [0, 0] 1 7,
      s.length = 2) ∧
    (∀ (st : SamplerState) (a : Bool),
      stepAccepted ⟨2, fun _ => Option.some 0, Option.none⟩ st = false →
      (stepRW ⟨2, fun _ => Option.some 0, Option.none⟩ a st).current = st.current) :=
  sample_adapt_chain_invariants ⟨2, fun _ => Option.some 0, Option.none⟩ 3 2 [0, 0] 1 7 rfl

lemma stepRW_false_scale (t : Target) (st : SamplerState) :
    (stepRW t false st).scale = st.scale := rfl

/-- C6: the adaptation state freezes after the warm-up window: for every
iteration index `i ≥ Nb`, the kernel scale parameter equals its value at
the end of warm-up and is never mutated again by acceptance feedback. -/
theorem adaptation_freezes_after_warmup (t : Target) (Nb : ℕ) (init : SamplerState)
    (i : ℕ) (h : Nb ≤ i) :
    (iterState t Nb init i).scale = (iterState t Nb init Nb).scale := by
  induction i, h using Nat.le_induction with
  | base => rfl
  | succ n hn ih =>
      have hlt : ¬ n < Nb := Nat.not_lt.mpr hn
      have hdec : decide (n < Nb) = false := by simp [hlt]
      calc (iterState t Nb init (n + 1)).scale
          = (stepRW t (decide (n < Nb)) (iterState t Nb init n)).scale := rfl
        _ = (stepRW t false (iterState t Nb init n)).scale := by rw [hdec]
        _ = (iterState t Nb init n).scale := stepRW_false_scale ..
        _ = (iterState t Nb init Nb).scale := ih

/-- Witness for C6 at a concrete run: two iterations past a warm-up of 2. -/
theorem adaptation_freezes_after_warmup_witness :
    (iterState ⟨1, fun _ => Option.some 0, Option.none⟩ 2 ⟨[0], 1, 5⟩ 4).scale
      = (iterState ⟨1, fun _ => Option.some 0, Option.none⟩ 2 ⟨[0], 1, 5⟩ 2).scale :=
  adaptation_freezes_after_warmup ⟨1, fun _ => Option.some 0, Option.none⟩ 2 ⟨[0], 1, 5⟩ 4
    (by decide)

/-- Modelled from the spec: the unnormalized log-density of the Gaussian
prior with covariance `σ²` (scalar case of spec section 4.2). -/
noncomputable def prior_log_density (σ x : ℝ) : ℝ := -(x ^ 2) / (2 * σ ^ 2)

/-- Modelled from the spec: the preconditioned Crank-Nicolson candidate
`√(1 - β²) · current + β · ξ` with `ξ ~ Gaussian(0, σ²)`
(spec section 4.2). -/
noncomputable def pcn_candidate (β x ξ : ℝ) : ℝ := Real.sqrt (1 - β ^ 2) * x + β * ξ

/-- Modelled from the spec: the unnormalized log proposal density of the
pCN kernel, `log q(x → y)` for the Gaussian move
`y | x ~ Gaussian(√(1 - β²) x, β² σ²)`. -/
noncomputable def pcn_proposal_log (β σ x y : ℝ) : ℝ :=
  -((y - Real.sqrt (1 - β ^ 2) * x) ^ 2) / (2 * (β * σ) ^ 2)

/-- Modelled from the spec: the target log-density composed from prior and
likelihood-through-the-forward-map (spec section 4.1). -/
noncomputable def target_log (σ : ℝ) (likeLog forward : ℝ → ℝ) (x : ℝ) : ℝ :=
  prior_log_density σ x + likeLog (forward x)

/-- Modelled from the spec: the Metropolis-Hastings acceptance probability
with proposal-asymmetry correction,
`min(1, exp(t(y) + q(y→x) - t(x) - q(x→y)))` (spec section 4.2). -/
noncomputable def mh_accept_prob (tl : ℝ → ℝ) (pl : ℝ → ℝ → ℝ) (x y : ℝ) : ℝ :=
  min 1 (Real.exp (tl y + pl y x - (tl x + pl x y)))

/-- The acceptance probability of the pCN kernel against the composed
target, instantiating the general MH rule. -/
noncomputable def pcn_accept_prob (σ β : ℝ) (likeLog forward : ℝ → ℝ) (x y : ℝ) : ℝ :=
  mh_accept_prob (target_log σ likeLog forward) (pcn_proposal_log β σ) x y

lemma pcn_prior_cancels (β σ x y : ℝ) (hβ : β ≠ 0) (hβ1 : β ^ 2 ≤ 1) (hσ : σ ≠ 0) :
    prior_log_density σ x + pcn_proposal_log β σ x y
      = prior_log_density σ y + pcn_proposal_log β σ y x := by
  have ha : Real.sqrt (1 - β ^ 2) ^ 2 = 1 - β ^ 2 := Real.sq_sqrt (by linarith)
  unfold prior_log_density pcn_proposal_log
  have hβ2 : (β : ℝ) ^ 2 ≠ 0 := pow_ne_zero 2 hβ
  have hσ2 : (σ : ℝ) ^ 2 ≠ 0 := pow_ne_zero 2 hσ
  field_simp
  ring_nf
  linear_combination (2 * σ ^ 2 * (y ^ 2 - x ^ 2)) * ha

/-- C2: for every current state `x` and pCN candidate
`y = √(1-β²)·x + β·ξ`, the Gaussian prior contribution cancels exactly in
the Metropolis-Hastings acceptance ratio, and the acceptance probability
equals `min(1, exp(likeLog(forward y) - likeLog(forward x)))`: it depends
only on the likelihood ratio. -/
theorem pcn_acceptance_likelihood_only (β σ : ℝ) (likeLog forward : ℝ → ℝ) (x ξ : ℝ)
    (hβ : β ≠ 0) (hβ1 : β ^ 2 ≤ 1) (hσ : σ ≠ 0) :
    (prior_log_density σ x + pcn_proposal_log β σ x (pcn_candidate β x ξ)
       = prior_log_density σ (pcn_candidate β x ξ)
           + pcn_proposal_log β σ (pcn_candidate β x ξ) x) ∧
    pcn_accept_prob σ β likeLog forward x (pcn_candidate β x ξ)
      = min 1 (Real.exp (likeLog (forward (pcn_candidate β x ξ)) - likeLog (forward x))) := by
  have hc := pcn_prior_cancels β σ x (pcn_candidate β x ξ) hβ hβ1 hσ
  refine ⟨hc, ?_⟩
  unfold pcn_accept_prob mh_accept_prob target_log
  have harg :
      prior_log_density σ (pcn_candidate β x ξ) + likeLog (forward (pcn_candidate β x ξ))
          + pcn_proposal_log β σ (pcn_candidate β x ξ) x
          - (prior_log_density σ x + likeLog (forward x)
              + pcn_proposal_log β σ x (pcn_candidate β x ξ))
        = likeLog (forward (pcn_candidate β x ξ)) - likeLog (forward x) := by
    linarith [hc]
  rw [harg]

/-- Witness for C2 at `β = 1`, `σ = 1`, identity likelihood and forward
map, current state `0` and noise draw `0`. -/
theorem pcn_acceptance_likelihood_only_witness :
    (prior_log_density 1 0 + pcn_proposal_log 1 1 0 (pcn_candidate 1 0 0)
       = prior_log_density 1 (pcn_candidate 1 0 0)
           + pcn_proposal_log 1 1 (pcn_candidate 1 0 0) 0) ∧
    pcn_accept_prob 1 1 (fun v => v) (fun v => v) 0 (pcn_candidate 1 0 0)
      = min 1 (Real.exp ((fun v => v) ((fun v => v) (pcn_candidate 1 0 0))
          - (fun v => v) ((fun v => v) (0 : ℝ)))) :=
  pcn_acceptance_likelihood_only 1 1 (fun v => v) (fun v => v) 0 0
    (by norm_num) (by norm_num) (by norm_num)

/-- Modelled from the spec: the density model composed from a prior
support predicate, prior and likelihood log-densities and the forward map
(spec section 4.1): an input violating the prior support yields `-inf`
(`none`) instead of raising; the function is total into `LogD`, whose
values are only `-inf` or finite rationals, so no `NaN` exists. -/
def model_log_density (support : List ℚ → Bool) (priorL likeL : List ℚ → ℚ)
    (forward : List ℚ → List ℚ) (x : List ℚ) : LogD :=
  if support x then Option.some (priorL x + likeL (forward x)) else Option.none

/-- Modelled from the spec: the support predicate of a
positivity-constrained prior (spec section 4.1). -/
def positivitySupport (x : List ℚ) : Bool := x.all (fun v => decide (0 < v))

/-- C3: the density model log-density returns `-inf` (it is a total
function; it does not raise) on every input violating the prior support,
and on every input its value is either `-inf` or a finite number — never
`NaN`, which has no representation in the value type. -/
theorem log_density_support_contract (support : List ℚ → Bool)
    (priorL likeL : List ℚ → ℚ) (forward : List ℚ → List ℚ) (x : List ℚ)
    (h : support x = false) :
    model_log_density support priorL likeL forward x = Option.none ∧
    (∀ z, model_log_density support priorL likeL forward z = Option.none ∨
      ∃ q : ℚ, model_log_density support priorL likeL forward z = Option.some q) := by
  constructor
  · simp [model_log_density, h]
  · intro z
    by_cases hz : support z
    · exact Or.inr ⟨priorL z + likeL (forward z), by simp [model_log_density, hz]⟩
    · exact Or.inl (by simp [model_log_density, hz])

/-- Witness for C3: a negative input under the positivity-constrained
prior support. -/
theorem log_density_support_contract_witness :
    model_log_density positivitySupport (fun _ => 0) (fun _ => 0) (fun v => v) [-1]
        = Option.none ∧
    (∀ z, model_log_density positivitySupport (fun _ => 0) (fun _ => 0) (fun v => v) z
        = Option.none ∨
      ∃ q : ℚ, model_log_density positivitySupport (fun _ => 0) (fun _ => 0) (fun v => v) z
        = Option.some q) :=
  log_density_support_contract positivitySupport (fun _ => 0) (fun _ => 0) (fun v => v) [-1]
    (by decide)

/-- Modelled from the spec: the sampler error taxonomy (spec section 7). -/
inductive KernelError where
  | unsupportedOperation
  | invalidInitialState
deriving DecidableEq

/-- Modelled from the spec: a constructed gradient-based (NUTS-style)
kernel holds its target together with the gradient oracle it obtained at
construction. -/
structure NUTSKernel where
  target : Target
  grad : List ℚ → List ℚ

/-- Modelled from the spec: construction of a gradient-based kernel
(spec sections 4.2 and 7): fails immediately with `UnsupportedOperation`
when the target has no supplied gradient, before any sampling iteration. -/
def NUTS_construct (t : Target) : Except KernelError NUTSKernel :=
  match t.gradient with
  | Option.none => Except.error KernelError.unsupportedOperation
  | Option.some g => Except.ok ⟨t, g⟩

/-- One deterministic gradient-driven position update, standing in for a
leapfrog trajectory of the constructed kernel. -/
def NUTSKernel.gradStep (k : NUTSKernel) (x : List ℚ) : List ℚ :=
  List.zipWith (fun a g => a + g / 10) x (k.grad x)

/-- Modelled from the spec: sampling with a constructed gradient-based
kernel: `N` states, the `n`-th being `n + 1` gradient-driven updates from
the initial state. -/
def NUTSKernel.sampleN (k : NUTSKernel) (N : ℕ) (x0 : List ℚ) : List (List ℚ) :=
  (List.range N).map (fun n => k.gradStep^[n + 1] x0)

/-- C4: constructing a gradient-based kernel against a target whose
forward map has no supplied gradient fails immediately at construction
with `UnsupportedOperation`, before any sampling iteration; with a
supplied gradient the kernel constructs and sampling succeeds, producing
a chain of the requested length. -/
theorem gradient_kernel_construction (t : Target) :
    (t.gradient = Option.none →
      NUTS_construct t = Except.error KernelError.unsupportedOperation) ∧
    (∀ g, t.gradient = Option.some g →
      ∃ k, NUTS_construct t = Except.ok k ∧ ∀ N x0, (k.sampleN N x0).length = N) := by
  constructor
  · intro h
    simp [NUTS_construct, h]
  · intro g hg
    refine ⟨⟨t, g⟩, by simp [NUTS_construct, hg], ?_⟩
    intro N x0
    simp [NUTSKernel.sampleN]

/-- Witness for C4: a gradient-free target fails at construction, and a
target with the identity gradient constructs and samples. -/
theorem gradient_kernel_construction_witness :
    (NUTS_construct ⟨1, fun _ => Option.some 0, Option.none⟩
        = Except.error KernelError.unsupportedOperation) ∧
    (∃ k, NUTS_construct ⟨1, fun _ => Option.some 0, Option.some (fun v => v)⟩
        = Except.ok k ∧ ∀ N x0, (k.sampleN N x0).length = N) :=
  ⟨(gradient_kernel_construction ⟨1, fun _ => Option.some 0, Option.none⟩).1 rfl,
   (gradient_kernel_construction
      ⟨1, fun _ => Option.some 0, Option.some (fun v => v)⟩).2 (fun v => v) rfl⟩

/-- C8: a proposal whose candidate lies outside the prior support (its
log-density is `-inf`) has acceptance probability exactly 0: for every
finite current log-density and every value of the uniform acceptance
draw, the acceptance decision is `false`, so the proposal is always
rejected and never accepted through floating-point leniency. -/
theorem outside_support_always_rejected (t : Target) (y : List ℚ)
    (h : t.log_density y = Option.none) :
    ∀ (lcur logu : ℚ), acceptDecision lcur (t.log_density y) logu = false := by
  intro lcur logu
  rw [h]
  simp [acceptDecision, logRatioD, minLogD, leLogD]

/-- Witness for C8: the positivity-constrained target at the negative
candidate `[-1]` is rejected for a concrete current value and draw. -/
theorem outside_support_always_rejected_witness :
    acceptDecision 0
      (Target.log_density
        ⟨1, model_log_density positivitySupport (fun _ => 0) (fun _ => 0) (fun v => v),
         Option.none⟩ [-1]) (-1 / 2) = false :=
  outside_support_always_rejected
    ⟨1, model_log_density positivitySupport (fun _ => 0) (fun _ => 0) (fun v => v),
     Option.none⟩ [-1] (by decide) 0 (-1 / 2)

/-- Modelled from the spec: stride selection over a chain, the model of
the slice `samples[Nb::Nt]` after the burn-in drop: `c` counts the
remaining skips before the next kept element, `k` is the stride. -/
def everyNthAux {α : Type} (k : ℕ) : List α → ℕ → List α
  | [], _ => []
  | a :: rest, 0 => a :: everyNthAux k rest (k - 1)
  | _ :: rest, c + 1 => everyNthAux k rest c

/-- Keep every `k`-th element of a list, starting with the first. -/
def everyNth {α : Type} (l : List α) (k : ℕ) : List α := everyNthAux k l 0

/-- Modelled from the spec: `burnthin(Nb, Nt)` on a chain store
(spec section 4.4): drop the first `Nb` states, keep every `Nt`-th of the
rest — a pure index selection over the original chain. -/
def burnthin (s : List (List ℚ)) (Nb Nt : ℕ) : List (List ℚ) :=
  everyNth (s.drop Nb) Nt

lemma everyNthAux_one {α : Type} (l : List α) : everyNthAux 1 l 0 = l := by
  induction l with
  | nil => rfl
  | cons a rest ih => simpa [everyNthAux] using ih

lemma everyNthAux_subset {α : Type} (l : List α) :
    ∀ (k c : ℕ), ∀ x ∈ everyNthAux k l c, x ∈ l := by
  induction l with
  | nil => intro k c x hx; simp [everyNthAux] at hx
  | cons a rest ih =>
      intro k c x hx
      cases c with
      | zero =>
          simp only [everyNthAux, List.mem_cons] at hx
          rcases hx with h | h
          · exact h ▸ List.mem_cons_self a rest
          · exact List.mem_cons_of_mem a (ih k (k - 1) x h)
      | succ m =>
          exact List.mem_cons_of_mem a (ih k m x hx)

/-- C5: `burnthin(0, 1)` returns the chain unchanged (identity law), and
`burnthin` never manufactures states: every element of a burnt-and-thinned
chain is an element of the original chain, which is passed by value and
not mutated. -/
theorem burnthin_identity_and_view (s : List (List ℚ)) :
    burnthin s 0 1 = s ∧
    (∀ (Nb Nt : ℕ) (x : List ℚ), x ∈ burnthin s Nb Nt → x ∈ s) := by
  constructor
  · simpa [burnthin, everyNth] using everyNthAux_one s
  · intro Nb Nt x hx
    exact List.drop_subset Nb s (everyNthAux_subset (s.drop Nb) Nt 0 x hx)

/-- Witness for C5 on a concrete three-state chain. -/
theorem burnthin_identity_and_view_witness :
    burnthin [[1], [2], [3]] 0 1 = [[1], [2], [3]] ∧ ([3] : List ℚ) ∈ [[1], [2], [3]] :=
  ⟨(burnthin_identity_and_view [[1], [2], [3]]).1,
   (burnthin_identity_and_view [[1], [2], [3]]).2 1 1 [3] (by decide)⟩

/-- Modelled from the spec: the ambient process environment, containing an
implicit global-state randomness source that a compliant sampler must not
consult (spec section 5). -/
structure Ambient where
  globalRand : ℕ → ℚ

/-- Modelled from the spec: the sampling entry point run inside an ambient
environment; all randomness is drawn from the explicitly owned seeded
generator threaded through `sample_adapt`, and the ambient source is never
consulted. -/
def sample_adapt_env (_env : Ambient) (t : Target) (Ns Nb : ℕ) (x0 : List ℚ)
    (scale0 : ℚ) (seed : ℕ) : List (List ℚ) :=
  sample_adapt t Ns Nb x0 scale0 seed

/-- C7: two sampling runs with the same seed and the same inputs produce
identical chains, even under different ambient global randomness sources:
the chain is a function of the explicit seed alone, so no sampler draws
from implicit global-state randomness. -/
theorem chains_reproducible_from_seed (env1 env2 : Ambient) (t : Target)
    (Ns Nb : ℕ) (x0 : List ℚ) (scale0 : ℚ) (seed1 seed2 : ℕ) (h : seed1 = seed2) :
    sample_adapt_env env1 t Ns Nb x0 scale0 seed1
      = sample_adapt_env env2 t Ns Nb x0 scale0 seed2 := by
  rw [h]
  rfl

/-- Witness for C7 with two distinct ambient randomness sources and a
shared seed. -/
theorem chains_reproducible_from_seed_witness :
    sample_adapt_env ⟨fun _ => 0⟩ ⟨1, fun _ => Option.some 0, Option.none⟩ 2 1 [0] 1 5
      = sample_adapt_env ⟨fun n => (n : ℚ)⟩ ⟨1, fun _ => Option.some 0, Option.none⟩
          2 1 [0] 1 5 :=
  chains_reproducible_from_seed ⟨fun _ => 0⟩ ⟨fun n => (n : ℚ)⟩
    ⟨1, fun _ => Option.some 0, Option.none⟩ 2 1 [0] 1 5 5 rfl

/-- Result of `Distribution.sample`: either a single sample (a CUQIarray)
or a `Samples` object whose entries are the drawn columns. -/
inductive SampleOut where
  | one : List ℚ → SampleOut
  | many : List (List ℚ) → SampleOut

/-- Modelled from the spec: a distribution object with a parameter
dimension and a seeded single-draw routine whose draws always have the
distribution dimension. -/
structure Dist where
  dim : ℕ
  draw : ℕ → List ℚ
  draw_dim : ∀ s, (draw s).length = dim

/-- Modelled from the spec: `Distribution.sample` — called with no count
(`Option.none`, the default) it returns a single sample as a CUQIarray;
called with a count `N` it returns a `Samples` object with one column per
requested sample. -/
def Dist.sample (d : Dist) (seed : ℕ) (N : Option ℕ) : SampleOut :=
  match N with
  | Option.none => SampleOut.one (d.draw seed)
  | Option.some n => SampleOut.many ((List.range n).map (fun i => d.draw (seed + i)))

/-- C9: `sample()` with no argument returns a single sample of the
distribution dimension (a CUQIarray), while `sample(N)` with `N > 1`
returns a `Samples` object with `N` columns, each column one sample of the
distribution dimension; the constructor of the result differs with the
requested count. -/
theorem sample_return_shape (d : Dist) (seed : ℕ) :
    (∃ v, d.sample seed Option.none = SampleOut.one v ∧ v.length = d.dim) ∧
    (∀ n, 1 < n → ∃ cols, d.sample seed (Option.some n) = SampleOut.many cols ∧
      cols.length = n ∧ ∀ c ∈ cols, c.length = d.dim) ∧
    (∀ n, 1 < n → ∀ v, d.sample seed (Option.some n) ≠ SampleOut.one v) := by
  refine ⟨⟨d.draw seed, rfl, d.draw_dim seed⟩, ?_, ?_⟩
  · intro n _
    refine ⟨(List.range n).map (fun i => d.draw (seed + i)), rfl, by simp, ?_⟩
    intro c hc
    simp only [List.mem_map, List.mem_range] at hc
    obtain ⟨i, -, rfl⟩ := hc
    exact d.draw_dim (seed + i)
  · intro n _ v h
    exact SampleOut.noConfusion h

/-- Witness for C9 at a concrete two-dimensional distribution and
requested count 3. -/
theorem sample_return_shape_witness :
    (∃ v, Dist.sample ⟨2, fun s => [(s : ℚ), 0], fun _ => rfl⟩ 4 Option.none
        = SampleOut.one v ∧ v.length = 2) ∧
    (∃ cols, Dist.sample ⟨2, fun s => [(s : ℚ), 0], fun _ => rfl⟩ 4 (Option.some 3)
        = SampleOut.many cols ∧ cols.length = 3 ∧ ∀ c ∈ cols, c.length = 2) :=
  ⟨(sample_return_shape ⟨2, fun s => [(s : ℚ), 0], fun _ => rfl⟩ 4).1,
   (sample_return_shape ⟨2, fun s => [(s : ℚ), 0], fun _ => rfl⟩ 4).2.1 3 (by decide)⟩

/-- Modelled from the spec: a (possibly conditional) Gaussian-style
distribution object: the standard deviation is a conditioning variable
and may be left unspecified (`Option.none`). -/
structure CondDist where
  mean : ℚ
  std : Option ℚ

/-- Names of the conditioning variables still unspecified. -/
def CondDist.condVars (d : CondDist) : List String :=
  match d.std with
  | Option.none => ["std"]
  | Option.some _ => []

/-- Modelled from the spec: sampling a distribution — an error is raised
when conditioning variables are still unspecified. -/
def CondDist.sampleC (d : CondDist) (seed : ℕ) : Except String (List ℚ) :=
  match d.std with
  | Option.none => Except.error "cannot sample: unspecified conditioning variables"
  | Option.some s => Except.ok [d.mean + s * (unitOf seed - 1 / 2)]

/-- Modelled from the spec: evaluating the log-density of a distribution —
an error is raised when conditioning variables are still unspecified. -/
def CondDist.logpdfC (d : CondDist) (x : ℚ) : Except String ℚ :=
  match d.std with
  | Option.none => Except.error "cannot evaluate logpdf: unspecified conditioning variables"
  | Option.some s => Except.ok (-((x - d.mean) ^ 2) / (2 * s ^ 2))

/-- Modelled from the spec: conditioning via call syntax, e.g. `X2(std=2)`:
returns a new distribution with the conditioning variable set; the
original object is not modified. -/
def CondDist.cond (d : CondDist) (v : ℚ) : CondDist := ⟨d.mean, Option.some v⟩

/-- C10: on a conditional distribution (unspecified conditioning
variable), `sample` and `logpdf` both raise; conditioning via the call
syntax returns a new distribution with no conditioning variables which
samples successfully, and the original object still has its conditioning
variable unspecified afterwards. -/
theorem conditional_distribution_behaviour (d : CondDist) (h : d.std = Option.none)
    (v x : ℚ) (seed : ℕ) :
    (∃ e, d.sampleC seed = Except.error e) ∧
    (∃ e, d.logpdfC x = Except.error e) ∧
    (d.cond v).condVars = [] ∧
    (∃ s, (d.cond v).sampleC seed = Except.ok s) ∧
    d.condVars = ["std"] := by
  refine ⟨⟨"cannot sample: unspecified conditioning variables", ?_⟩,
    ⟨"cannot evaluate logpdf: unspecified conditioning variables", ?_⟩, ?_,
    ⟨[d.mean + v * (unitOf seed - 1 / 2)], ?_⟩, ?_⟩
  · simp [CondDist.sampleC, h]
  · simp [CondDist.logpdfC, h]
  · rfl
  · rfl
  · simp [CondDist.condVars, h]

/-- Witness for C10 at a concrete conditional distribution with mean 0,
conditioned on standard deviation 2. -/
theorem conditional_distribution_behaviour_witness :
    (∃ e, CondDist.sampleC ⟨0, Option.none⟩ 3 = Except.error e) ∧
    (∃ e, CondDist.logpdfC ⟨0, Option.none⟩ 1 = Except.error e) ∧
    (CondDist.cond ⟨0, Option.none⟩ 2).condVars = [] ∧
    (∃ s, (CondDist.cond ⟨0, Option.none⟩ 2).sampleC 3 = Except.ok s) ∧
    CondDist.condVars ⟨0, Option.none⟩ = ["std"] :=
  conditional_distribution_behaviour ⟨0, Option.none⟩ rfl 2 1 3

end CUQIpyDemos
